import Mathlib

/-!
Shallow embedding of the "consensus" discussion platform.

The authoritative backend is a relational schema (`supabase/schema.sql`):
tables `claims`, `replies`, `threads`, `messages` with row-level security
policies, plus the `handle_new_reply` trigger that auto-provisions a
thread on reply insertion.  The application layer consists of the client
handlers `handleSubmit` (new claim page), `handleReplySubmit`,
`handleAcceptReply`, `handleRejectReply` (reply section),
`handleSendMessage` (thread view), the server-side `ThreadPage`
participant check, and the `HomePage` claim listing.

The embedding models the database as explicit lists of rows together
with a monotone counter `nextId` that supplies both fresh primary keys
and store-assigned `created_at` timestamps (each insert advances the
counter, so creation times are strictly increasing in insertion order).
Row-level-security denials are surfaced with the error taxonomy used by
the rest of the development (`forbidden`, `notFound`, `validationError`):
a write that the policy layer refuses leaves the state untouched.
-/

namespace Consensus

/-- `CREATE TYPE claim_type AS ENUM ('fact', 'value', 'policy')` -/
inductive ClaimType
  | fact
  | value
  | policy
deriving DecidableEq, Repr

/-- `CREATE TYPE stance_type AS ENUM ('supports', 'contradicts')` -/
inductive StanceType
  | supports
  | contradicts
deriving DecidableEq, Repr

/-- `CREATE TYPE reply_status AS ENUM ('pending', 'accepted', 'rejected')` -/
inductive ReplyStatus
  | pending
  | accepted
  | rejected
deriving DecidableEq, Repr

/-- A row of the `claims` table. -/
structure ClaimRow where
  id : Nat
  text : String
  claim_type : ClaimType
  author_id : Nat
  created_at : Nat
deriving DecidableEq, Repr

/-- A row of the `replies` table. -/
structure ReplyRow where
  id : Nat
  parent_claim_id : Nat
  text : String
  stance : StanceType
  status : ReplyStatus
  rejection_reason : Option String
  author_id : Nat
  created_at : Nat
deriving DecidableEq, Repr

/-- A row of the `threads` table (`UNIQUE(reply_id)`). -/
structure ThreadRow where
  id : Nat
  reply_id : Nat
  claim_owner_id : Nat
  reply_author_id : Nat
  created_at : Nat
deriving DecidableEq, Repr

/-- A row of the `messages` table. -/
structure MessageRow where
  id : Nat
  thread_id : Nat
  sender_id : Nat
  body : String
  created_at : Nat
deriving DecidableEq, Repr

/-- The database state: the four content tables plus a monotone counter
that supplies fresh primary keys and `created_at` timestamps. -/
structure DB where
  claims : List ClaimRow
  replies : List ReplyRow
  threads : List ThreadRow
  messages : List MessageRow
  nextId : Nat
deriving DecidableEq, Repr

/-- Error taxonomy of the specification (§7): `validationError` for
empty/oversized text, `forbidden` for a row-level-security denial,
`notFound` for an absent referenced row. -/
inductive DbError
  | validationError
  | forbidden
  | notFound
deriving DecidableEq, Repr

/-- Whitespace as recognised by JavaScript `String.prototype.trim()`
(restricted to the space, tab, newline and related ASCII characters plus
the no-break space; the application only ever distinguishes these). -/
def isJsWhitespace (c : Char) : Bool :=
  c == ' ' || c == '\t' || c == '\n' || c == '\r' ||
  c == '\x0b' || c == '\x0c' || c == ' '

/-- JavaScript `String.prototype.trim()`: drop leading and trailing
whitespace. -/
def jsTrim (s : String) : String :=
  String.mk (((s.data.dropWhile isJsWhitespace).reverse.dropWhile isJsWhitespace).reverse)

/-- `handleSubmit` of `app/new/page.tsx`: rejects text longer than 300
characters ("Claim must be 300 characters or less"), then rejects text
that trims to empty ("Claim cannot be empty"), and otherwise inserts a
claim row whose `text` is the trimmed input.  On either rejection no row
is inserted.  (The schema's `CHECK (LENGTH(text) <= 300)` is implied:
trimming never lengthens the text.) -/
def handleSubmit (db : DB) (actor : Nat) (text : String) (ct : ClaimType) :
    Except DbError (DB × ClaimRow) :=
  if text.length > 300 then .error .validationError
  else if (jsTrim text).length = 0 then .error .validationError
  else
    let c : ClaimRow :=
      { id := db.nextId, text := jsTrim text, claim_type := ct,
        author_id := actor, created_at := db.nextId }
    .ok ({ db with claims := db.claims ++ [c], nextId := db.nextId + 1 }, c)

/-- The `handle_new_reply` trigger of `supabase/schema.sql`, fired on
reply insertion: look up the parent claim's `author_id`, then
`INSERT INTO threads (reply_id, claim_owner_id, reply_author_id)`
with `ON CONFLICT (reply_id) DO NOTHING` — when a thread for this reply
already exists the insert is skipped and the state returned unchanged
(a no-op, never an error). -/
def handle_new_reply (db : DB) (r : ReplyRow) : DB :=
  match db.claims.find? (fun c => c.id == r.parent_claim_id) with
  | none => db
  | some c =>
    if db.threads.any (fun t => t.reply_id == r.id) then db
    else
      { db with
        threads := db.threads ++
          [{ id := db.nextId, reply_id := r.id, claim_owner_id := c.author_id,
             reply_author_id := r.author_id, created_at := db.nextId }],
        nextId := db.nextId + 1 }

/-- `handleReplySubmit` of `ReplySection.tsx`: rejects text that trims to
empty ("Reply cannot be empty"); otherwise inserts a reply row with the
trimmed text, the schema default `status = 'pending'`, and
`rejection_reason` null, and the `on_reply_created` trigger fires
`handle_new_reply` in the same unit of work.  The parent claim must
exist (foreign key `parent_claim_id REFERENCES claims(id)`). -/
def handleReplySubmit (db : DB) (actor : Nat) (claimId : Nat)
    (text : String) (stance : StanceType) :
    Except DbError (DB × ReplyRow) :=
  if (jsTrim text).length = 0 then .error .validationError
  else
    match db.claims.find? (fun c => c.id == claimId) with
    | none => .error .notFound
    | some _ =>
      let r : ReplyRow :=
        { id := db.nextId, parent_claim_id := claimId, text := jsTrim text,
          stance := stance, status := .pending, rejection_reason := none,
          author_id := actor, created_at := db.nextId }
      let db1 := { db with replies := db.replies ++ [r], nextId := db.nextId + 1 }
      .ok (handle_new_reply db1 r, r)

/-- The `USING` predicate of the policy "Claim owner can update reply
status": there exists a claim row whose `id` is the reply's
`parent_claim_id` and whose `author_id` is the caller. -/
def replyUpdateAllowed (db : DB) (actor : Nat) (r : ReplyRow) : Bool :=
  db.claims.any (fun c => c.id == r.parent_claim_id && c.author_id == actor)

/-- `handleAcceptReply` of `ReplySection.tsx`:
`UPDATE replies SET status = 'accepted' WHERE id = replyId`, subject to
the "Claim owner can update reply status" policy.  A caller the policy
refuses changes nothing (`forbidden`); an absent reply is `notFound`. -/
def handleAcceptReply (db : DB) (actor : Nat) (replyId : Nat) :
    Except DbError DB :=
  match db.replies.find? (fun r => r.id == replyId) with
  | none => .error .notFound
  | some r =>
    if replyUpdateAllowed db actor r then
      .ok { db with
            replies := db.replies.map (fun x =>
              if x.id == replyId then { x with status := .accepted } else x) }
    else .error .forbidden

/-- `handleRejectReply` of `ReplySection.tsx`:
`UPDATE replies SET status = 'rejected', rejection_reason =
rejectReason.trim() || null WHERE id = replyId` under the same policy —
a reason that trims to the empty string is stored as null. -/
def handleRejectReply (db : DB) (actor : Nat) (replyId : Nat)
    (reason : String) : Except DbError DB :=
  match db.replies.find? (fun r => r.id == replyId) with
  | none => .error .notFound
  | some r =>
    if replyUpdateAllowed db actor r then
      .ok { db with
            replies := db.replies.map (fun x =>
              if x.id == replyId then
                { x with status := .rejected,
                         rejection_reason :=
                           if jsTrim reason = "" then none
                           else some (jsTrim reason) }
              else x) }
    else .error .forbidden

/-- Membership test of the two fixed thread participants
(`claim_owner_id` and `reply_author_id`). -/
def participantOf (t : ThreadRow) (u : Nat) : Bool :=
  t.claim_owner_id == u || t.reply_author_id == u

/-- Ordering of messages by store-assigned creation time. -/
def msgLe (a b : MessageRow) : Prop :=
  a.created_at ≤ b.created_at

instance : DecidableRel msgLe := fun a b => Nat.decLe _ _

instance : IsTotal MessageRow msgLe := ⟨fun a b => Nat.le_total _ _⟩

instance : IsTrans MessageRow msgLe := ⟨fun _ _ _ => Nat.le_trans⟩

/-- `ThreadPage` of `app/thread/[id]/page.tsx`: fetch the thread
(absent → `notFound`), verify the session user is one of the two
participants (otherwise `redirect("/")`, surfaced as `forbidden`), then
fetch the thread's messages ordered by `created_at` ascending. -/
def listMessages (db : DB) (actor : Nat) (threadId : Nat) :
    Except DbError (List MessageRow) :=
  match db.threads.find? (fun t => t.id == threadId) with
  | none => .error .notFound
  | some t =>
    if participantOf t actor then
      .ok ((db.messages.filter (fun m => m.thread_id == threadId)).insertionSort msgLe)
    else .error .forbidden

/-- The `INSERT` path on `messages` under the policy "Participants can
send messages": the row is accepted only when a thread with the given id
exists whose participants include the caller and `sender_id` is the
caller; a policy violation aborts the insert with an error
(`forbidden`), leaving the table unchanged.  `handleSendMessage` always
inserts `sender_id = currentUserId`, so the `sender_id = auth.uid()`
conjunct of the policy holds by construction. -/
def insertMessage (db : DB) (actor : Nat) (threadId : Nat)
    (body : String) : Except DbError (DB × MessageRow) :=
  match db.threads.find? (fun t => t.id == threadId) with
  | none => .error .forbidden
  | some t =>
    if participantOf t actor then
      let m : MessageRow :=
        { id := db.nextId, thread_id := threadId, sender_id := actor,
          body := body, created_at := db.nextId }
      .ok ({ db with messages := db.messages ++ [m], nextId := db.nextId + 1 }, m)
    else .error .forbidden

/-- Outcome of `handleSendMessage`: a successful insert, the silent
early return on empty input, or a surfaced insert error. -/
inductive SendResult
  | sent (db : DB) (m : MessageRow)
  | skippedEmpty
  | failed (e : DbError)
deriving DecidableEq, Repr

/-- Whether a `SendResult` reports an error to the caller (the `alert`
branch of `handleSendMessage`). -/
def SendResult.isError : SendResult → Bool
  | .failed _ => true
  | _ => false

/-- `handleSendMessage` of `ThreadView.tsx`: when the input trims to the
empty string the handler returns early — no insert is attempted and no
error is shown.  Otherwise it inserts a message whose body is the
trimmed input and whose `sender_id` is the current user; an insert error
is surfaced via `alert`. -/
def handleSendMessage (db : DB) (actor : Nat) (threadId : Nat)
    (body : String) : SendResult :=
  if (jsTrim body).length = 0 then .skippedEmpty
  else
    match insertMessage db actor threadId (jsTrim body) with
    | .error e => .failed e
    | .ok (db', m) => .sent db' m

/-- `DELETE FROM claims WHERE id = claimId` under the policy "Authors
can delete their own claims" (`USING (auth.uid() = author_id)`): a row
invisible to the caller is simply not matched, so a non-author's delete
changes nothing.  A delete that does apply cascades along the schema's
foreign keys: `replies.parent_claim_id → claims.id`,
`threads.reply_id → replies.id`, `messages.thread_id → threads.id`,
all `ON DELETE CASCADE`. -/
def deleteClaim (db : DB) (actor : Nat) (claimId : Nat) : DB :=
  match db.claims.find? (fun c => c.id == claimId) with
  | none => db
  | some c =>
    if c.author_id == actor then
      let deadReplies := db.replies.filter (fun r => r.parent_claim_id == claimId)
      let deadThreads := db.threads.filter
        (fun t => deadReplies.any (fun r => r.id == t.reply_id))
      { db with
        claims := db.claims.filter (fun x => !(x.id == claimId)),
        replies := db.replies.filter (fun r => !(r.parent_claim_id == claimId)),
        threads := db.threads.filter
          (fun t => !(deadReplies.any (fun r => r.id == t.reply_id))),
        messages := db.messages.filter
          (fun m => !(deadThreads.any (fun t => t.id == m.thread_id))) }
    else db

/-- The visibility condition of the "Open Discussion" button in
`renderReplyGroup` of `ReplySection.tsx`, verbatim:
`isClaimOwner || (isLoggedIn && reply.author_id === claimOwnerId)`. -/
def showDiscussionButton (isClaimOwner : Bool) (isLoggedIn : Bool)
    (reply_author_id : Nat) (claimOwnerId : Nat) : Bool :=
  isClaimOwner || (isLoggedIn && reply_author_id == claimOwnerId)

/-- The button's visibility for a concrete viewer: `ClaimPage` computes
`isClaimOwner` as "the session user is the claim's author" and passes
the claim's author as `claimOwnerId`.  (`ReplySection` never receives
the viewer's own id.) -/
def discussionButtonVisible (viewerId : Nat) (loggedIn : Bool)
    (claimAuthorId : Nat) (replyAuthorId : Nat) : Bool :=
  showDiscussionButton (loggedIn && viewerId == claimAuthorId) loggedIn
    replyAuthorId claimAuthorId

/-- Ordering of claims by creation time, newest first (the home page's
`order("created_at", { ascending: false })`). -/
def claimGe (a b : ClaimRow) : Prop :=
  b.created_at ≤ a.created_at

instance : DecidableRel claimGe := fun a b => Nat.decLe _ _

instance : IsTotal ClaimRow claimGe := ⟨fun a b => (Nat.le_total _ _).symm⟩

instance : IsTrans ClaimRow claimGe := ⟨fun _ _ _ h h' => Nat.le_trans h' h⟩

/-- `HomePage` of `app/page.tsx`: fetch claims ordered by `created_at`
descending, `limit(50)`, and annotate each with the exact count of
replies whose `parent_claim_id` is the claim's id (`count || 0`). -/
def homePage (db : DB) : List (ClaimRow × Nat) :=
  ((db.claims.insertionSort claimGe).take 50).map
    (fun c => (c, (db.replies.filter (fun r => r.parent_claim_id == c.id)).length))

/-- A single status-transition call available to the parent claim's
author in `ReplySection.tsx`: the Accept button or the reject modal. -/
inductive ReplyCall
  | accept
  | reject (reason : String)
deriving DecidableEq, Repr

/-- Dispatch one lifecycle call to the corresponding handler. -/
def applyReplyCall (actor : Nat) (replyId : Nat) (db : DB) :
    ReplyCall → Except DbError DB
  | .accept => handleAcceptReply db actor replyId
  | .reject reason => handleRejectReply db actor replyId reason

/-- Run a sequence of lifecycle calls, stopping at the first error. -/
def runReplyCalls (actor : Nat) (replyId : Nat) :
    DB → List ReplyCall → Except DbError DB
  | db, [] => .ok db
  | db, c :: cs =>
    match applyReplyCall actor replyId db c with
    | .error e => .error e
    | .ok db' => runReplyCalls actor replyId db' cs

/-! ### Concrete fixtures (used by the witness theorems) -/

/-- A claim posted by user 1. -/
def c0 : ClaimRow :=
  { id := 0, text := "X is true", claim_type := .fact, author_id := 1,
    created_at := 0 }

/-- A database holding just the claim `c0`. -/
def dbC : DB :=
  { claims := [c0], replies := [], threads := [], messages := [], nextId := 1 }

/-- The reply user 2 attaches to `c0` via `handleReplySubmit`. -/
def rB : ReplyRow :=
  { id := 1, parent_claim_id := 0, text := "X is false",
    stance := .contradicts, status := .pending, rejection_reason := none,
    author_id := 2, created_at := 1 }

/-- The thread the trigger provisions for `rB`. -/
def tB : ThreadRow :=
  { id := 2, reply_id := 1, claim_owner_id := 1, reply_author_id := 2,
    created_at := 2 }

/-- The database after user 2's reply: `handleReplySubmit dbC 2 0 ... `
returns exactly this state paired with `rB`. -/
def dbCR : DB :=
  { claims := [c0], replies := [rB], threads := [tB], messages := [],
    nextId := 3 }

/-- The reply after `handleAcceptReply dbCR 1 1`. -/
def rBacc : ReplyRow :=
  { rB with status := .accepted }

/-- The database after user 1 accepts the reply. -/
def dbAcc : DB :=
  { dbCR with replies := [rBacc] }

/-- The reply after a subsequent `handleRejectReply dbCR 1 1`. -/
def rBrej : ReplyRow :=
  { rB with status := .rejected, rejection_reason := some "too vague" }

/-- The database after user 1 rejects the reply with a padded reason. -/
def dbRej : DB :=
  { dbCR with replies := [rBrej] }

/-- The reply after user 1 rejects with a whitespace-only reason. -/
def rBrejNone : ReplyRow :=
  { rB with status := .rejected, rejection_reason := none }

/-- The database after `handleRejectReply dbCR 1 1 "   "`. -/
def dbRejEmpty : DB :=
  { dbCR with replies := [rBrejNone] }

/-- A second claim posted by user 1 into `dbC`. -/
def cY : ClaimRow :=
  { id := 1, text := "Y", claim_type := .value, author_id := 1,
    created_at := 1 }

/-- The database after `handleSubmit dbC 1 "Y" .value`. -/
def dbCY : DB :=
  { claims := [c0, cY], replies := [], threads := [], messages := [],
    nextId := 2 }

/-- A message user 2 sends in thread `tB`. -/
def mB : MessageRow :=
  { id := 3, thread_id := 2, sender_id := 2, body := "let us discuss",
    created_at := 3 }

/-- The database after user 2's message. -/
def dbCRM : DB :=
  { claims := [c0], replies := [rB], threads := [tB], messages := [mB],
    nextId := 4 }

/-! ### Helper lemmas -/

/-- Re-running the thread-provisioning trigger is the identity once a
thread for the reply exists (`ON CONFLICT (reply_id) DO NOTHING`). -/
theorem handle_new_reply_of_any (db : DB) (r : ReplyRow)
    (h : db.threads.any (fun t => t.reply_id == r.id) = true) :
    handle_new_reply db r = db := by
  unfold handle_new_reply
  cases hfind : db.claims.find? (fun c => c.id == r.parent_claim_id) <;> simp [h]

/-- When no thread for the reply exists yet and the parent claim is
found, the trigger appends exactly the new thread row. -/
theorem handle_new_reply_insert (db : DB) (r : ReplyRow) (c : ClaimRow)
    (hfind : db.claims.find? (fun x => x.id == r.parent_claim_id) = some c)
    (hany : db.threads.any (fun t => t.reply_id == r.id) = false) :
    handle_new_reply db r =
      { db with
        threads := db.threads ++
          [{ id := db.nextId, reply_id := r.id, claim_owner_id := c.author_id,
             reply_author_id := r.author_id, created_at := db.nextId }],
        nextId := db.nextId + 1 } := by
  unfold handle_new_reply
  rw [hfind]
  simp [hany]

/-- The trigger never touches the `claims` table. -/
theorem handle_new_reply_claims (db : DB) (r : ReplyRow) :
    (handle_new_reply db r).claims = db.claims := by
  unfold handle_new_reply
  cases hfind : db.claims.find? (fun c => c.id == r.parent_claim_id) with
  | none => rfl
  | some c =>
    by_cases hany : db.threads.any (fun t => t.reply_id == r.id) <;> simp [hany]

/-- The policy predicate is false when no claim row of the parent id has
the caller as author. -/
theorem replyUpdateAllowed_eq_false (db : DB) (actor : Nat) (r : ReplyRow)
    (h : ∀ c ∈ db.claims, c.id = r.parent_claim_id → c.author_id ≠ actor) :
    replyUpdateAllowed db actor r = false := by
  unfold replyUpdateAllowed
  rw [List.any_eq_false]
  intro c hc hp
  simp only [Bool.and_eq_true, beq_iff_eq] at hp
  exact h c hc hp.1 hp.2

/-- A true policy predicate exhibits the authorising claim row. -/
theorem exists_of_replyUpdateAllowed (db : DB) (actor : Nat) (r : ReplyRow)
    (h : replyUpdateAllowed db actor r = true) :
    ∃ c ∈ db.claims, c.id = r.parent_claim_id ∧ c.author_id = actor := by
  unfold replyUpdateAllowed at h
  rw [List.any_eq_true] at h
  obtain ⟨c, hc, hp⟩ := h
  simp only [Bool.and_eq_true, beq_iff_eq] at hp
  exact ⟨c, hc, hp.1, hp.2⟩

/-- Inversion of a successful `handleAcceptReply`. -/
theorem handleAcceptReply_ok (db : DB) (actor : Nat) (replyId : Nat)
    (db2 : DB) (h : handleAcceptReply db actor replyId = .ok db2) :
    ∃ r, db.replies.find? (fun x => x.id == replyId) = some r ∧
      replyUpdateAllowed db actor r = true ∧
      db2 = { db with replies := db.replies.map (fun x =>
        if x.id == replyId then { x with status := .accepted } else x) } := by
  unfold handleAcceptReply at h
  split at h
  · exact absurd h (by simp)
  · rename_i r hfind
    split at h
    · simp only [Except.ok.injEq] at h
      exact ⟨r, hfind, by assumption, h.symm⟩
    · exact absurd h (by simp)

/-- Inversion of a successful `handleRejectReply`. -/
theorem handleRejectReply_ok (db : DB) (actor : Nat) (replyId : Nat)
    (reason : String) (db2 : DB)
    (h : handleRejectReply db actor replyId reason = .ok db2) :
    ∃ r, db.replies.find? (fun x => x.id == replyId) = some r ∧
      replyUpdateAllowed db actor r = true ∧
      db2 = { db with replies := db.replies.map (fun x =>
        if x.id == replyId then
          { x with status := .rejected,
                   rejection_reason :=
                     if jsTrim reason = "" then none
                     else some (jsTrim reason) }
        else x) } := by
  unfold handleRejectReply at h
  split at h
  · exact absurd h (by simp)
  · rename_i r hfind
    split at h
    · simp only [Except.ok.injEq] at h
      exact ⟨r, hfind, by assumption, h.symm⟩
    · exact absurd h (by simp)

/-- Every reply row matching the updated id is `accepted` after a
successful accept, and `rejected` after a successful reject. -/
theorem applyReplyCall_settles (actor : Nat) (replyId : Nat) (db db' : DB)
    (c : ReplyCall) (h : applyReplyCall actor replyId db c = .ok db') :
    ∀ x ∈ db'.replies, x.id = replyId →
      x.status = .accepted ∨ x.status = .rejected := by
  cases c with
  | accept =>
    obtain ⟨r, _, _, hdb⟩ := handleAcceptReply_ok db actor replyId db' h
    subst hdb
    intro x hx hxid
    simp only [List.mem_map] at hx
    obtain ⟨y, hy, hxy⟩ := hx
    by_cases hyid : (y.id == replyId) = true
    · rw [if_pos hyid] at hxy
      left
      rw [← hxy]
    · rw [if_neg hyid] at hxy
      subst hxy
      exact absurd hxid (by simpa using hyid)
  | reject reason =>
    obtain ⟨r, _, _, hdb⟩ := handleRejectReply_ok db actor replyId reason db' h
    subst hdb
    intro x hx hxid
    simp only [List.mem_map] at hx
    obtain ⟨y, hy, hxy⟩ := hx
    by_cases hyid : (y.id == replyId) = true
    · rw [if_pos hyid] at hxy
      right
      rw [← hxy]
    · rw [if_neg hyid] at hxy
      subst hxy
      exact absurd hxid (by simpa using hyid)

/-- After a nonempty successful sequence of lifecycle calls, every reply
row with the targeted id has a terminal status. -/
theorem runReplyCalls_settles (actor : Nat) (replyId : Nat) :
    ∀ (calls : List ReplyCall) (db db2 : DB), calls ≠ [] →
      runReplyCalls actor replyId db calls = .ok db2 →
      ∀ x ∈ db2.replies, x.id = replyId →
        x.status = .accepted ∨ x.status = .rejected := by
  intro calls
  induction calls with
  | nil => intro db db2 hne; exact absurd rfl hne
  | cons c cs ih =>
    intro db db2 _ hrun
    unfold runReplyCalls at hrun
    cases happ : applyReplyCall actor replyId db c with
    | error e => rw [happ] at hrun; exact absurd hrun (by simp)
    | ok db' =>
      rw [happ] at hrun
      cases cs with
      | nil =>
        unfold runReplyCalls at hrun
        simp only [Except.ok.injEq] at hrun
        subst hrun
        exact applyReplyCall_settles actor replyId db db' c happ
      | cons c' cs' =>
        exact ih db' db2 (by simp) hrun

/-! ### Claim theorems -/

/-- **C1.** For every reply `r` successfully created, exactly one thread
row has `reply_id = r.id`; it is created in the same unit of work as `r`
(`handleReplySubmit` performs both the reply insert and the trigger);
its `claim_owner_id` is the parent claim's `author_id` and its
`reply_author_id` is `r.author_id`; and a second attempt to provision a
thread for the same reply is a no-op — `handle_new_reply` has no error
outcome and leaves the state unchanged. -/
theorem reply_thread_provisioning
    (db : DB) (actor : Nat) (claimId : Nat) (text : String)
    (stance : StanceType) (db' : DB) (r : ReplyRow)
    (hfresh : ∀ t ∈ db.threads, t.reply_id < db.nextId)
    (h : handleReplySubmit db actor claimId text stance = .ok (db', r)) :
    (db'.threads.filter (fun t => t.reply_id == r.id)).length = 1 ∧
    (∀ t ∈ db'.threads, t.reply_id = r.id →
      ∃ c ∈ db.claims, c.id = r.parent_claim_id ∧
        t.claim_owner_id = c.author_id ∧ t.reply_author_id = r.author_id) ∧
    handle_new_reply db' r = db' := by
  unfold handleReplySubmit at h
  by_cases hempty : (jsTrim text).length = 0
  · rw [if_pos hempty] at h
    exact absurd h (by simp)
  · rw [if_neg hempty] at h
    cases hfind : db.claims.find? (fun c => c.id == claimId) with
    | none => rw [hfind] at h; exact absurd h (by simp)
    | some c =>
      rw [hfind] at h
      simp only [Except.ok.injEq, Prod.mk.injEq] at h
      obtain ⟨hdb, hr⟩ := h
      have hrid : r.id = db.nextId := by rw [← hr]
      have hrpar : r.parent_claim_id = claimId := by rw [← hr]
      have hraut : r.author_id = actor := by rw [← hr]
      have hany : db.threads.any (fun t => t.reply_id == r.id) = false := by
        rw [List.any_eq_false]
        intro t ht
        have hlt := hfresh t ht
        simp only [beq_iff_eq, hrid]
        omega
      rw [hr] at hdb
      have hins := handle_new_reply_insert
        { db with replies := db.replies ++ [r], nextId := db.nextId + 1 } r c
        (by rw [hrpar]; exact hfind) hany
      rw [hins] at hdb
      subst hdb
      refine ⟨?_, ?_, ?_⟩
      · simp only [List.filter_append]
        rw [List.filter_eq_nil_iff.mpr, List.nil_append]
        · simp
        · intro t ht
          have hlt := hfresh t ht
          simp only [beq_iff_eq, hrid]
          omega
      · intro t ht htid
        simp only [List.mem_append, List.mem_singleton] at ht
        rcases ht with ht | ht
        · have hlt := hfresh t ht
          rw [hrid] at htid
          omega
        · subst ht
          refine ⟨c, List.mem_of_find?_eq_some hfind, ?_, rfl, rfl⟩
          have := List.find?_some hfind
          rw [hrpar]
          simpa [beq_iff_eq] using this
      · apply handle_new_reply_of_any
        simp

/-- Witness for C1 at the concrete scenario: user 2 replies to user 1's
claim `c0`. -/
theorem reply_thread_provisioning_witness :
    (dbCR.threads.filter (fun t => t.reply_id == rB.id)).length = 1 ∧
    (∀ t ∈ dbCR.threads, t.reply_id = rB.id →
      ∃ c ∈ dbC.claims, c.id = rB.parent_claim_id ∧
        t.claim_owner_id = c.author_id ∧ t.reply_author_id = rB.author_id) ∧
    handle_new_reply dbCR rB = dbCR :=
  reply_thread_provisioning dbC 2 0 "X is false" .contradicts dbCR rB
    (by decide) (by rfl)

/-- **C2.** Every reply is created with status `pending`; `accept` and
`reject` succeed only when the caller is the parent claim's author and
set the status to `accepted` / `rejected` respectively; a caller who is
not the parent claim's author is refused with `Forbidden`; and after any
nonempty sequence of successful accept/reject calls the reply's status
is terminal (`accepted` or `rejected`). -/
theorem reply_lifecycle :
    (∀ (db : DB) (actor claimId : Nat) (text : String) (stance : StanceType)
       (db' : DB) (r : ReplyRow),
       handleReplySubmit db actor claimId text stance = .ok (db', r) →
       r.status = .pending) ∧
    (∀ (db : DB) (actor replyId : Nat) (reason : String) (r : ReplyRow),
       db.replies.find? (fun x => x.id == replyId) = some r →
       (∀ c ∈ db.claims, c.id = r.parent_claim_id → c.author_id ≠ actor) →
       handleAcceptReply db actor replyId = .error .forbidden ∧
       handleRejectReply db actor replyId reason = .error .forbidden) ∧
    (∀ (db : DB) (actor replyId : Nat) (db2 : DB),
       handleAcceptReply db actor replyId = .ok db2 →
       (∃ r, db.replies.find? (fun x => x.id == replyId) = some r ∧
          ∃ c ∈ db.claims, c.id = r.parent_claim_id ∧ c.author_id = actor) ∧
       ∀ x ∈ db2.replies, x.id = replyId → x.status = .accepted) ∧
    (∀ (db : DB) (actor replyId : Nat) (reason : String) (db2 : DB),
       handleRejectReply db actor replyId reason = .ok db2 →
       (∃ r, db.replies.find? (fun x => x.id == replyId) = some r ∧
          ∃ c ∈ db.claims, c.id = r.parent_claim_id ∧ c.author_id = actor) ∧
       ∀ x ∈ db2.replies, x.id = replyId → x.status = .rejected) ∧
    (∀ (db : DB) (actor replyId : Nat) (calls : List ReplyCall) (db2 : DB),
       calls ≠ [] → runReplyCalls actor replyId db calls = .ok db2 →
       ∀ x ∈ db2.replies, x.id = replyId →
         x.status = .accepted ∨ x.status = .rejected) := by
  refine ⟨?_, ?_, ?_, ?_, ?_⟩
  · intro db actor claimId text stance db' r h
    unfold handleReplySubmit at h
    by_cases hempty : (jsTrim text).length = 0
    · rw [if_pos hempty] at h
      exact absurd h (by simp)
    · rw [if_neg hempty] at h
      cases hfind : db.claims.find? (fun c => c.id == claimId) with
      | none => rw [hfind] at h; exact absurd h (by simp)
      | some c =>
        rw [hfind] at h
        simp only [Except.ok.injEq, Prod.mk.injEq] at h
        rw [← h.2]
  · intro db actor replyId reason r hfind hnot
    have hallow := replyUpdateAllowed_eq_false db actor r hnot
    constructor
    · unfold handleAcceptReply
      rw [hfind]
      simp [hallow]
    · unfold handleRejectReply
      rw [hfind]
      simp [hallow]
  · intro db actor replyId db2 h
    obtain ⟨r, hfind, hall, hdb⟩ := handleAcceptReply_ok db actor replyId db2 h
    refine ⟨⟨r, hfind, exists_of_replyUpdateAllowed db actor r hall⟩, ?_⟩
    subst hdb
    intro x hx hxid
    simp only [List.mem_map] at hx
    obtain ⟨y, hy, hxy⟩ := hx
    by_cases hyid : (y.id == replyId) = true
    · rw [if_pos hyid] at hxy
      rw [← hxy]
    · rw [if_neg hyid] at hxy
      subst hxy
      exact absurd hxid (by simpa using hyid)
  · intro db actor replyId reason db2 h
    obtain ⟨r, hfind, hall, hdb⟩ := handleRejectReply_ok db actor replyId reason db2 h
    refine ⟨⟨r, hfind, exists_of_replyUpdateAllowed db actor r hall⟩, ?_⟩
    subst hdb
    intro x hx hxid
    simp only [List.mem_map] at hx
    obtain ⟨y, hy, hxy⟩ := hx
    by_cases hyid : (y.id == replyId) = true
    · rw [if_pos hyid] at hxy
      rw [← hxy]
    · rw [if_neg hyid] at hxy
      subst hxy
      exact absurd hxid (by simpa using hyid)
  · intro db actor replyId calls db2 hne hrun
    exact runReplyCalls_settles actor replyId calls db db2 hne hrun

/-- Witness for C2: user 1 owns the claim, user 2 wrote the reply;
user 2's transition attempts are refused, user 1's accept then reject
leave the status terminal. -/
theorem reply_lifecycle_witness :
    rB.status = .pending ∧
    (handleAcceptReply dbCR 2 1 = .error .forbidden ∧
     handleRejectReply dbCR 2 1 "no" = .error .forbidden) ∧
    ((∃ r, dbCR.replies.find? (fun x => x.id == 1) = some r ∧
        ∃ c ∈ dbCR.claims, c.id = r.parent_claim_id ∧ c.author_id = 1) ∧
     ∀ x ∈ dbAcc.replies, x.id = 1 → x.status = .accepted) ∧
    ((∃ r, dbAcc.replies.find? (fun x => x.id == 1) = some r ∧
        ∃ c ∈ dbAcc.claims, c.id = r.parent_claim_id ∧ c.author_id = 1) ∧
     ∀ x ∈ dbRej.replies, x.id = 1 → x.status = .rejected) ∧
    (∀ x ∈ dbRej.replies, x.id = 1 →
       x.status = .accepted ∨ x.status = .rejected) :=
  ⟨reply_lifecycle.1 dbC 2 0 "X is false" .contradicts dbCR rB (by rfl),
   reply_lifecycle.2.1 dbCR 2 1 "no" rB (by rfl) (by decide),
   reply_lifecycle.2.2.1 dbCR 1 1 dbAcc (by rfl),
   reply_lifecycle.2.2.2.1 dbAcc 1 1 "  too vague  " dbRej (by rfl),
   reply_lifecycle.2.2.2.2 dbCR 1 1 [.accept, .reject "  too vague  "] dbRej
     (by simp) (by rfl)⟩

/-- **C3.** For every thread and every actor who is not one of its two
fixed participants, listing the thread's messages and inserting a
message both fail with `Forbidden`; conversely a successful listing
exhibits the thread row of which the actor is a participant. -/
theorem thread_access_control :
    (∀ (db : DB) (actor threadId : Nat) (t : ThreadRow),
       db.threads.find? (fun x => x.id == threadId) = some t →
       participantOf t actor = false →
       listMessages db actor threadId = .error .forbidden ∧
       ∀ body, insertMessage db actor threadId body = .error .forbidden) ∧
    (∀ (db : DB) (actor threadId : Nat) (msgs : List MessageRow),
       listMessages db actor threadId = .ok msgs →
       ∃ t, db.threads.find? (fun x => x.id == threadId) = some t ∧
         participantOf t actor = true) := by
  constructor
  · intro db actor threadId t hfind hpart
    constructor
    · unfold listMessages
      rw [hfind]
      simp [hpart]
    · intro body
      unfold insertMessage
      rw [hfind]
      simp [hpart]
  · intro db actor threadId msgs h
    unfold listMessages at h
    split at h
    · exact absurd h (by simp)
    · rename_i t hfind
      split at h
      · exact ⟨t, hfind, by assumption⟩
      · exact absurd h (by simp)

/-- Witness for C3: user 3 is neither participant of thread `tB`, user 1
is. -/
theorem thread_access_control_witness :
    (listMessages dbCRM 3 2 = .error .forbidden ∧
     ∀ body, insertMessage dbCRM 3 2 body = .error .forbidden) ∧
    (∃ t, dbCRM.threads.find? (fun x => x.id == 2) = some t ∧
       participantOf t 1 = true) :=
  ⟨thread_access_control.1 dbCRM 3 2 tB (by rfl) (by decide),
   thread_access_control.2 dbCRM 1 2 [mB] (by rfl)⟩

/-- **C4.** Claim text longer than 300 characters is rejected, as is
claim or reply text that trims to empty; claim text of length at most
300 that does not trim to empty is accepted.  A rejected create returns
the error without any new row. -/
theorem text_validation :
    (∀ (db : DB) (actor : Nat) (text : String) (ct : ClaimType),
       300 < text.length →
       handleSubmit db actor text ct = .error .validationError) ∧
    (∀ (db : DB) (actor : Nat) (text : String) (ct : ClaimType),
       (jsTrim text).length = 0 →
       handleSubmit db actor text ct = .error .validationError) ∧
    (∀ (db : DB) (actor : Nat) (text : String) (ct : ClaimType),
       text.length ≤ 300 → (jsTrim text).length ≠ 0 →
       ∃ db' c, handleSubmit db actor text ct = .ok (db', c)) ∧
    (∀ (db : DB) (actor claimId : Nat) (text : String) (stance : StanceType),
       (jsTrim text).length = 0 →
       handleReplySubmit db actor claimId text stance = .error .validationError) := by
  refine ⟨?_, ?_, ?_, ?_⟩
  · intro db actor text ct h
    unfold handleSubmit
    rw [if_pos h]
  · intro db actor text ct h
    unfold handleSubmit
    by_cases h300 : text.length > 300
    · rw [if_pos h300]
    · rw [if_neg h300, if_pos h]
  · intro db actor text ct h300 hne
    unfold handleSubmit
    rw [if_neg (by omega), if_neg hne]
    exact ⟨_, _, rfl⟩
  · intro db actor claimId text stance h
    unfold handleReplySubmit
    rw [if_pos h]

set_option maxRecDepth 4000 in
/-- Witness for C4 at text of lengths 301 and 300, and whitespace-only
claim and reply text. -/
theorem text_validation_witness :
    handleSubmit dbC 1 (String.mk (List.replicate 301 'a')) .fact =
      .error .validationError ∧
    handleSubmit dbC 1 "   " .fact = .error .validationError ∧
    (∃ db' c,
      handleSubmit dbC 1 (String.mk (List.replicate 300 'a')) .fact =
        .ok (db', c)) ∧
    handleReplySubmit dbC 2 0 " \t " .supports = .error .validationError :=
  ⟨text_validation.1 dbC 1 (String.mk (List.replicate 301 'a')) .fact
     (by decide),
   text_validation.2.1 dbC 1 "   " .fact (by decide),
   text_validation.2.2.1 dbC 1 (String.mk (List.replicate 300 'a')) .fact
     (by decide) (by decide),
   text_validation.2.2.2 dbC 2 0 " \t " .supports (by decide)⟩

/-- **C5 (code bug).** `renderReplyGroup` compares the reply's author to
the claim owner instead of to the viewer, so the "Open Discussion" entry
point is hidden from a logged-in reply author who is not the claim owner
(first conjunct: viewer 2 wrote the reply to user 1's claim and does not
see the button), while any logged-in third party sees it whenever the
reply was authored by the claim owner (second conjunct). -/
theorem discussion_button_bug :
    discussionButtonVisible 2 true 1 2 = false ∧
    discussionButtonVisible 3 true 1 1 = true := by decide

/-- **C6 counterexample.** Sending an empty body does not surface any
error to the caller: user 2 is a participant of thread `tB`, yet
`handleSendMessage` with the empty body silently returns without
inserting and without reporting an error. -/
theorem send_empty_body_counterexample :
    handleSendMessage dbCR 2 2 "" = .skippedEmpty ∧
    (handleSendMessage dbCR 2 2 "").isError = false := by decide

/-- **C6 (amended).** When the body trims to empty, `handleSendMessage`
returns early: no message row is inserted and no error is reported
(a silent no-op rather than an `InvalidInput` failure); otherwise, for a
participant, it appends a message with `sender_id = actor`. -/
theorem send_message_behaviour :
    (∀ (db : DB) (actor threadId : Nat) (body : String),
       (jsTrim body).length = 0 →
       handleSendMessage db actor threadId body = .skippedEmpty) ∧
    (∀ (db : DB) (actor threadId : Nat) (body : String) (t : ThreadRow),
       (jsTrim body).length ≠ 0 →
       db.threads.find? (fun x => x.id == threadId) = some t →
       participantOf t actor = true →
       ∃ db' m, handleSendMessage db actor threadId body = .sent db' m ∧
         m.sender_id = actor ∧ m.body = jsTrim body ∧
         db'.messages = db.messages ++ [m]) := by
  constructor
  · intro db actor threadId body h
    unfold handleSendMessage
    rw [if_pos h]
  · intro db actor threadId body t hne hfind hpart
    have hins : insertMessage db actor threadId (jsTrim body) =
        .ok ({ db with
               messages := db.messages ++
                 [{ id := db.nextId, thread_id := threadId, sender_id := actor,
                    body := jsTrim body, created_at := db.nextId }],
               nextId := db.nextId + 1 },
             { id := db.nextId, thread_id := threadId, sender_id := actor,
               body := jsTrim body, created_at := db.nextId }) := by
      unfold insertMessage
      rw [hfind]
      simp [hpart]
    unfold handleSendMessage
    rw [if_neg hne, hins]
    exact ⟨_, _, rfl, rfl, rfl, rfl⟩

/-- Witness for the amended C6: empty body is skipped; user 2's
nonempty message is appended with `sender_id = 2`. -/
theorem send_message_behaviour_witness :
    handleSendMessage dbCR 2 2 " " = .skippedEmpty ∧
    (∃ db' m, handleSendMessage dbCR 2 2 "let us discuss" = .sent db' m ∧
       m.sender_id = 2 ∧ m.body = jsTrim "let us discuss" ∧
       db'.messages = dbCR.messages ++ [m]) :=
  ⟨send_message_behaviour.1 dbCR 2 2 " " (by decide),
   send_message_behaviour.2 dbCR 2 2 "let us discuss" tB (by decide)
     (by rfl) (by decide)⟩

/-- Inversion of a successful `listMessages`. -/
theorem listMessages_ok_inv (db : DB) (actor threadId : Nat)
    (msgs : List MessageRow) (h : listMessages db actor threadId = .ok msgs) :
    ∃ t, db.threads.find? (fun x => x.id == threadId) = some t ∧
      participantOf t actor = true ∧
      msgs = (db.messages.filter
        (fun m => m.thread_id == threadId)).insertionSort msgLe := by
  unfold listMessages at h
  split at h
  · exact absurd h (by simp)
  · rename_i t hfind
    split at h
    · simp only [Except.ok.injEq] at h
      exact ⟨t, hfind, by assumption, h.symm⟩
    · exact absurd h (by simp)

/-- Inversion of a `handleSendMessage` call that reports a sent
message. -/
theorem handleSendMessage_sent_inv (db : DB) (actor threadId : Nat)
    (body : String) (db' : DB) (m : MessageRow)
    (h : handleSendMessage db actor threadId body = .sent db' m) :
    ∃ t, db.threads.find? (fun x => x.id == threadId) = some t ∧
      participantOf t actor = true ∧
      m = { id := db.nextId, thread_id := threadId, sender_id := actor,
            body := jsTrim body, created_at := db.nextId } ∧
      db' = { db with messages := db.messages ++ [m],
                      nextId := db.nextId + 1 } := by
  unfold handleSendMessage at h
  by_cases hempty : (jsTrim body).length = 0
  · rw [if_pos hempty] at h
    exact absurd h (by simp)
  · rw [if_neg hempty] at h
    split at h
    · exact absurd h (by simp)
    · rename_i db2 m2 hins
      simp only [SendResult.sent.injEq] at h
      obtain ⟨hdb2, hm2⟩ := h
      subst hdb2
      subst hm2
      unfold insertMessage at hins
      split at hins
      · exact absurd hins (by simp)
      · rename_i t hfind
        split at hins
        · simp only [Except.ok.injEq, Prod.mk.injEq] at hins
          obtain ⟨h1, h2⟩ := hins
          refine ⟨t, hfind, by assumption, h2.symm, ?_⟩
          rw [← h1, h2]
        · exact absurd hins (by simp)

/-- In a list sorted by creation time in which `m` strictly dominates
every other element, `m` is the last element. -/
theorem getLast?_of_sorted_max :
    ∀ (l : List MessageRow) (m : MessageRow), l.Sorted msgLe → m ∈ l →
      (∀ x ∈ l, x ≠ m → x.created_at < m.created_at) →
      l.getLast? = some m := by
  intro l
  induction l with
  | nil => intro m _ hm; exact absurd hm (List.not_mem_nil m)
  | cons a t ih =>
    intro m hs hm hmax
    cases t with
    | nil =>
      simp only [List.mem_singleton] at hm
      subst hm
      rfl
    | cons b t' =>
      rw [List.getLast?_cons_cons]
      have hrel : ∀ x ∈ b :: t', msgLe a x := (List.pairwise_cons.mp hs).1
      by_cases hm' : m ∈ b :: t'
      · exact ih m hs.of_cons hm'
          (fun x hx => hmax x (List.mem_cons_of_mem a hx))
      · exfalso
        have hma : m = a := by
          rcases List.mem_cons.mp hm with h | h
          · exact h
          · exact absurd h hm'
        have hbm : b ≠ m := fun hbm => hm' (hbm ▸ List.mem_cons_self b t')
        have h1 := hmax b (List.mem_cons_of_mem a (List.mem_cons_self b t')) hbm
        have h2 := hrel b (List.mem_cons_self b t')
        unfold msgLe at h2
        rw [hma] at h1
        omega

/-- **C7.** A successful `listMessages` returns the thread's messages
sorted by `created_at` ascending as a permutation of exactly the
thread's rows (the full history); and a message just sent via
`handleSendMessage` appears, unmodified, as the last element of any
participant's subsequent `listMessages` result. -/
theorem message_round_trip :
    (∀ (db : DB) (actor threadId : Nat) (msgs : List MessageRow),
       listMessages db actor threadId = .ok msgs →
       msgs.Sorted msgLe ∧
       msgs.Perm (db.messages.filter (fun m => m.thread_id == threadId))) ∧
    (∀ (db : DB) (actor lister threadId : Nat) (body : String) (db' : DB)
       (m : MessageRow) (msgs : List MessageRow),
       (∀ x ∈ db.messages, x.created_at < db.nextId) →
       handleSendMessage db actor threadId body = .sent db' m →
       listMessages db' lister threadId = .ok msgs →
       msgs.getLast? = some m) := by
  constructor
  · intro db actor threadId msgs h
    obtain ⟨t, hfind, hpart, hmsgs⟩ := listMessages_ok_inv db actor threadId msgs h
    subst hmsgs
    exact ⟨List.sorted_insertionSort msgLe _, List.perm_insertionSort msgLe _⟩
  · intro db actor lister threadId body db' m msgs hfresh hsend hlist
    obtain ⟨t, hfind, hpart, hm, hdb'⟩ :=
      handleSendMessage_sent_inv db actor threadId body db' m hsend
    obtain ⟨t', hfind', hpart', hmsgs⟩ :=
      listMessages_ok_inv db' lister threadId msgs hlist
    subst hmsgs
    have hmsgsf : db'.messages.filter (fun x => x.thread_id == threadId) =
        db.messages.filter (fun x => x.thread_id == threadId) ++ [m] := by
      rw [hdb', List.filter_append]
      rw [show List.filter (fun x => x.thread_id == threadId) [m] = [m] from by
        simp [hm]]
    have hmtid : m.created_at = db.nextId := by rw [hm]
    rw [hmsgsf]
    apply getLast?_of_sorted_max _ m (List.sorted_insertionSort msgLe _)
    · rw [List.mem_insertionSort]
      exact List.mem_append.mpr (Or.inr (List.mem_singleton.mpr rfl))
    · intro x hx hxm
      rw [List.mem_insertionSort] at hx
      rcases List.mem_append.mp hx with hx | hx
      · have hxmem := (List.mem_filter.mp hx).1
        have := hfresh x hxmem
        omega
      · exact absurd (List.mem_singleton.mp hx) hxm

/-- Witness for C7: user 2 sends a message in thread `tB`; user 1 then
lists the thread and sees it in final position. -/
theorem message_round_trip_witness :
    ([mB].Sorted msgLe ∧
     [mB].Perm (dbCRM.messages.filter (fun m => m.thread_id == 2))) ∧
    [mB].getLast? = some mB :=
  ⟨message_round_trip.1 dbCRM 1 2 [mB] (by rfl),
   message_round_trip.2 dbCR 2 1 2 "let us discuss" dbCRM mB [mB]
     (by decide) (by rfl) (by rfl)⟩

/-- Reduction of `deleteClaim` when the caller owns the targeted
claim: the claim row is removed and the deletion cascades along the
foreign keys. -/
theorem deleteClaim_eq (db : DB) (actor claimId : Nat) (c : ClaimRow)
    (hfind : db.claims.find? (fun x => x.id == claimId) = some c)
    (hauth : c.author_id = actor) :
    deleteClaim db actor claimId =
      { db with
        claims := db.claims.filter (fun x => !(x.id == claimId)),
        replies := db.replies.filter (fun r => !(r.parent_claim_id == claimId)),
        threads := db.threads.filter (fun t =>
          !((db.replies.filter (fun r => r.parent_claim_id == claimId)).any
              (fun r => r.id == t.reply_id))),
        messages := db.messages.filter (fun m =>
          !((db.threads.filter (fun t =>
              (db.replies.filter (fun r => r.parent_claim_id == claimId)).any
                (fun r => r.id == t.reply_id))).any
              (fun t => t.id == m.thread_id))) } := by
  unfold deleteClaim
  rw [hfind]
  simp [hauth]

/-- Reduction of `deleteClaim` when the caller does not own the targeted
claim (or it does not exist): the policy exposes no matching row, so the
state is unchanged. -/
theorem deleteClaim_noop (db : DB) (actor claimId : Nat)
    (h : ∀ c ∈ db.claims, c.id = claimId → c.author_id ≠ actor) :
    deleteClaim db actor claimId = db := by
  unfold deleteClaim
  cases hfind : db.claims.find? (fun x => x.id == claimId) with
  | none => rfl
  | some c =>
    have hc := List.mem_of_find?_eq_some hfind
    have hcid : c.id = claimId := by
      have := List.find?_some hfind
      simpa [beq_iff_eq] using this
    have hne : c.author_id ≠ actor := h c hc hcid
    simp [beq_eq_false_iff_ne.mpr hne]

/-- **C8.** Claims are immutable after creation: none of the
application's operations changes an existing claim row (reply creation,
accept/reject, and message sending leave the `claims` table unchanged,
and claim creation only appends); a claim can be deleted only by its
author (anyone else's delete is a no-op), and an author's delete removes
the claim and cascades to its replies, their threads, and those threads'
messages. -/
theorem claim_immutability :
    (∀ (db : DB) (actor claimId : Nat) (text : String) (stance : StanceType)
       (db' : DB) (r : ReplyRow),
       handleReplySubmit db actor claimId text stance = .ok (db', r) →
       db'.claims = db.claims) ∧
    (∀ (db : DB) (actor replyId : Nat) (db2 : DB),
       handleAcceptReply db actor replyId = .ok db2 → db2.claims = db.claims) ∧
    (∀ (db : DB) (actor replyId : Nat) (reason : String) (db2 : DB),
       handleRejectReply db actor replyId reason = .ok db2 →
       db2.claims = db.claims) ∧
    (∀ (db : DB) (actor threadId : Nat) (body : String) (db' : DB)
       (m : MessageRow),
       handleSendMessage db actor threadId body = .sent db' m →
       db'.claims = db.claims) ∧
    (∀ (db : DB) (actor : Nat) (text : String) (ct : ClaimType) (db' : DB)
       (c : ClaimRow),
       handleSubmit db actor text ct = .ok (db', c) →
       db'.claims = db.claims ++ [c]) ∧
    (∀ (db : DB) (actor claimId : Nat),
       (∀ c ∈ db.claims, c.id = claimId → c.author_id ≠ actor) →
       deleteClaim db actor claimId = db) ∧
    (∀ (db : DB) (actor claimId : Nat) (c : ClaimRow),
       db.claims.find? (fun x => x.id == claimId) = some c →
       c.author_id = actor →
       (∀ x ∈ (deleteClaim db actor claimId).claims, x.id ≠ claimId) ∧
       (∀ r ∈ (deleteClaim db actor claimId).replies,
          r.parent_claim_id ≠ claimId) ∧
       (∀ t ∈ (deleteClaim db actor claimId).threads, ∀ r ∈ db.replies,
          r.parent_claim_id = claimId → t.reply_id ≠ r.id) ∧
       (∀ m ∈ (deleteClaim db actor claimId).messages, ∀ t ∈ db.threads,
          ∀ r ∈ db.replies, r.parent_claim_id = claimId → t.reply_id = r.id →
          m.thread_id ≠ t.id)) := by
  refine ⟨?_, ?_, ?_, ?_, ?_, ?_, ?_⟩
  · intro db actor claimId text stance db' r h
    unfold handleReplySubmit at h
    by_cases hempty : (jsTrim text).length = 0
    · rw [if_pos hempty] at h
      exact absurd h (by simp)
    · rw [if_neg hempty] at h
      split at h
      · exact absurd h (by simp)
      · simp only [Except.ok.injEq, Prod.mk.injEq] at h
        rw [← h.1, handle_new_reply_claims]
  · intro db actor replyId db2 h
    obtain ⟨r, _, _, hdb⟩ := handleAcceptReply_ok db actor replyId db2 h
    rw [hdb]
  · intro db actor replyId reason db2 h
    obtain ⟨r, _, _, hdb⟩ := handleRejectReply_ok db actor replyId reason db2 h
    rw [hdb]
  · intro db actor threadId body db' m h
    obtain ⟨t, _, _, _, hdb⟩ := handleSendMessage_sent_inv db actor threadId body db' m h
    rw [hdb]
  · intro db actor text ct db' c h
    unfold handleSubmit at h
    by_cases h300 : text.length > 300
    · rw [if_pos h300] at h
      exact absurd h (by simp)
    · rw [if_neg h300] at h
      by_cases hempty : (jsTrim text).length = 0
      · rw [if_pos hempty] at h
        exact absurd h (by simp)
      · rw [if_neg hempty] at h
        simp only [Except.ok.injEq, Prod.mk.injEq] at h
        rw [← h.1, ← h.2]
  · intro db actor claimId h
    exact deleteClaim_noop db actor claimId h
  · intro db actor claimId c hfind hauth
    rw [deleteClaim_eq db actor claimId c hfind hauth]
    refine ⟨?_, ?_, ?_, ?_⟩
    · intro x hx
      have hp := (List.mem_filter.mp hx).2
      simpa using hp
    · intro r hr
      have hp := (List.mem_filter.mp hr).2
      simpa using hp
    · intro t ht r hr hpar
      have hp := (List.mem_filter.mp ht).2
      simp only [Bool.not_eq_true', List.any_eq_false] at hp
      have := hp r (List.mem_filter.mpr ⟨hr, by simp [hpar]⟩)
      intro hcontra
      exact this (by simp [hcontra])
    · intro m hm t ht r hr hpar htr
      have hp := (List.mem_filter.mp hm).2
      simp only [Bool.not_eq_true', List.any_eq_false] at hp
      have htmem : t ∈ db.threads.filter (fun t =>
          (db.replies.filter (fun r => r.parent_claim_id == claimId)).any
            (fun r => r.id == t.reply_id)) := by
        refine List.mem_filter.mpr ⟨ht, ?_⟩
        rw [List.any_eq_true]
        exact ⟨r, List.mem_filter.mpr ⟨hr, by simp [hpar]⟩, by simp [htr]⟩
      have := hp t htmem
      intro hcontra
      exact this (by simp [hcontra])

/-- Witness for C8: the operations of the concrete scenario leave the
single claim row unchanged, user 2's delete is a no-op, and user 1's
delete removes the claim with its reply, thread, and message. -/
theorem claim_immutability_witness :
    dbCR.claims = dbC.claims ∧
    dbAcc.claims = dbCR.claims ∧
    dbRej.claims = dbAcc.claims ∧
    dbCRM.claims = dbCR.claims ∧
    dbCY.claims = dbC.claims ++ [cY] ∧
    deleteClaim dbCRM 2 0 = dbCRM ∧
    ((∀ x ∈ (deleteClaim dbCRM 1 0).claims, x.id ≠ 0) ∧
     (∀ r ∈ (deleteClaim dbCRM 1 0).replies, r.parent_claim_id ≠ 0) ∧
     (∀ t ∈ (deleteClaim dbCRM 1 0).threads, ∀ r ∈ dbCRM.replies,
        r.parent_claim_id = 0 → t.reply_id ≠ r.id) ∧
     (∀ m ∈ (deleteClaim dbCRM 1 0).messages, ∀ t ∈ dbCRM.threads,
        ∀ r ∈ dbCRM.replies, r.parent_claim_id = 0 → t.reply_id = r.id →
        m.thread_id ≠ t.id)) :=
  ⟨claim_immutability.1 dbC 2 0 "X is false" .contradicts dbCR rB (by rfl),
   claim_immutability.2.1 dbCR 1 1 dbAcc (by rfl),
   claim_immutability.2.2.1 dbAcc 1 1 "  too vague  " dbRej (by rfl),
   claim_immutability.2.2.2.1 dbCR 2 2 "let us discuss" dbCRM mB (by rfl),
   claim_immutability.2.2.2.2.1 dbC 1 "Y" .value dbCY cY (by rfl),
   claim_immutability.2.2.2.2.2.1 dbCRM 2 0 (by decide),
   claim_immutability.2.2.2.2.2.2 dbCRM 1 0 c0 (by rfl) (by rfl)⟩

/-- **C9.** Every piece of user-supplied text is trimmed before storage:
the stored claim text, reply text, and message body equal the trim of
the submitted input, and a rejection reason equals its trim when that is
nonempty and is stored as absent when it trims to empty. -/
theorem input_trimming :
    (∀ (db : DB) (actor : Nat) (text : String) (ct : ClaimType) (db' : DB)
       (c : ClaimRow),
       handleSubmit db actor text ct = .ok (db', c) → c.text = jsTrim text) ∧
    (∀ (db : DB) (actor claimId : Nat) (text : String) (stance : StanceType)
       (db' : DB) (r : ReplyRow),
       handleReplySubmit db actor claimId text stance = .ok (db', r) →
       r.text = jsTrim text) ∧
    (∀ (db : DB) (actor threadId : Nat) (body : String) (db' : DB)
       (m : MessageRow),
       handleSendMessage db actor threadId body = .sent db' m →
       m.body = jsTrim body) ∧
    (∀ (db : DB) (actor replyId : Nat) (reason : String) (db2 : DB),
       handleRejectReply db actor replyId reason = .ok db2 →
       ∀ x ∈ db2.replies, x.id = replyId →
         x.rejection_reason =
           if jsTrim reason = "" then none else some (jsTrim reason)) := by
  refine ⟨?_, ?_, ?_, ?_⟩
  · intro db actor text ct db' c h
    unfold handleSubmit at h
    by_cases h300 : text.length > 300
    · rw [if_pos h300] at h
      exact absurd h (by simp)
    · rw [if_neg h300] at h
      by_cases hempty : (jsTrim text).length = 0
      · rw [if_pos hempty] at h
        exact absurd h (by simp)
      · rw [if_neg hempty] at h
        simp only [Except.ok.injEq, Prod.mk.injEq] at h
        rw [← h.2]
  · intro db actor claimId text stance db' r h
    unfold handleReplySubmit at h
    by_cases hempty : (jsTrim text).length = 0
    · rw [if_pos hempty] at h
      exact absurd h (by simp)
    · rw [if_neg hempty] at h
      split at h
      · exact absurd h (by simp)
      · simp only [Except.ok.injEq, Prod.mk.injEq] at h
        rw [← h.2]
  · intro db actor threadId body db' m h
    obtain ⟨t, _, _, hm, _⟩ :=
      handleSendMessage_sent_inv db actor threadId body db' m h
    rw [hm]
  · intro db actor replyId reason db2 h
    obtain ⟨r, hfind, hall, hdb⟩ :=
      handleRejectReply_ok db actor replyId reason db2 h
    subst hdb
    intro x hx hxid
    simp only [List.mem_map] at hx
    obtain ⟨y, hy, hxy⟩ := hx
    by_cases hyid : (y.id == replyId) = true
    · rw [if_pos hyid] at hxy
      rw [← hxy]
    · rw [if_neg hyid] at hxy
      subst hxy
      exact absurd hxid (by simpa using hyid)

/-- Witness for C9: padded claim, reply, and message inputs are stored
trimmed, and a whitespace-only rejection reason is stored as absent. -/
theorem input_trimming_witness :
    cY.text = jsTrim "Y" ∧
    rB.text = jsTrim " X is false " ∧
    mB.body = jsTrim "  let us discuss  " ∧
    (∀ x ∈ dbRejEmpty.replies, x.id = 1 →
       x.rejection_reason =
         if jsTrim "   " = "" then none else some (jsTrim "   ")) :=
  ⟨input_trimming.1 dbC 1 "Y" .value dbCY cY (by rfl),
   input_trimming.2.1 dbC 2 0 " X is false " .contradicts dbCR rB (by rfl),
   input_trimming.2.2.1 dbCR 2 2 "  let us discuss  " dbCRM mB (by rfl),
   input_trimming.2.2.2 dbCR 1 1 "   " dbRejEmpty (by rfl)⟩

/-- **C10.** The home page listing holds at most 50 claims, ordered by
`created_at` descending; each entry's annotation equals the number of
replies whose `parent_claim_id` is that claim's id; and every claim left
off the page is no newer than any claim shown. -/
theorem home_page_listing :
    ∀ db : DB,
      (homePage db).length ≤ 50 ∧
      ((homePage db).map Prod.fst).Sorted claimGe ∧
      (∀ p ∈ homePage db,
        p.2 = (db.replies.filter
          (fun r => r.parent_claim_id == p.1.id)).length) ∧
      (∀ c ∈ db.claims, c ∉ (homePage db).map Prod.fst →
        ∀ p ∈ homePage db, c.created_at ≤ p.1.created_at) := by
  intro db
  have hmap : (homePage db).map Prod.fst =
      (db.claims.insertionSort claimGe).take 50 := by
    unfold homePage
    rw [List.map_map]
    rw [show (Prod.fst ∘ fun c : ClaimRow =>
        (c, (db.replies.filter (fun r => r.parent_claim_id == c.id)).length)) =
        id from rfl]
    rw [List.map_id]
  refine ⟨?_, ?_, ?_, ?_⟩
  · unfold homePage
    rw [List.length_map, List.length_take]
    exact inf_le_left
  · rw [hmap]
    exact List.Pairwise.sublist (List.take_sublist 50 _)
      (List.sorted_insertionSort claimGe db.claims)
  · intro p hp
    unfold homePage at hp
    rw [List.mem_map] at hp
    obtain ⟨c, hc, hpc⟩ := hp
    rw [← hpc]
  · intro c hc hnot p hp
    have hcs : c ∈ db.claims.insertionSort claimGe :=
      (List.mem_insertionSort claimGe).mpr hc
    rw [hmap] at hnot
    have hsplit := List.take_append_drop 50 (db.claims.insertionSort claimGe)
    have hcd : c ∈ (db.claims.insertionSort claimGe).drop 50 := by
      rcases List.mem_append.mp (by rw [hsplit]; exact hcs) with h | h
      · exact absurd h hnot
      · exact h
    have hp1 : p.1 ∈ (db.claims.insertionSort claimGe).take 50 := by
      rw [← hmap]
      exact List.mem_map_of_mem Prod.fst hp
    have hsorted := List.sorted_insertionSort claimGe db.claims
    rw [← hsplit] at hsorted
    exact (List.pairwise_append.mp hsorted).2.2 p.1 hp1 c hcd

/-- Witness for C10 at the two-claim database `dbCY` extended with the
reply scenario: the single reply to claim 0 is counted and claim
ordering is newest first. -/
theorem home_page_listing_witness :
    (homePage dbCR).length ≤ 50 ∧
    ((homePage dbCR).map Prod.fst).Sorted claimGe ∧
    (∀ p ∈ homePage dbCR,
      p.2 = (dbCR.replies.filter
        (fun r => r.parent_claim_id == p.1.id)).length) ∧
    (∀ c ∈ dbCR.claims, c ∉ (homePage dbCR).map Prod.fst →
      ∀ p ∈ homePage dbCR, c.created_at ≤ p.1.created_at) :=
  home_page_listing dbCR

end Consensus
